import Mathlib

/-!
Verification of the extraction/normalization core of the `wyatt` repository
(`edgar_scraper.py`, `stock_scraper.py`), shallowly embedded in Lean.

Numbers reported by the providers are modelled as exact rationals (`ℚ`);
JSON objects are modelled as association lists; a Python value that may be
`None` (`dict.get`) is modelled as an `Option`.  Network calls are modelled
as function parameters (`factsOf`): the code under verification is the pure
per-ticker processing applied to whatever payload the provider returned.
-/

namespace Wyatt

/-- One reported XBRL fact entry, as consumed by `extract_quarterly_value`
(`edgar_scraper.py`).  The fields model the JSON record keys `form`, `frame`,
`end` and `val`; an `Option` is `none` exactly when `entry.get(key)` would
return `None` (key missing). -/
structure FactEntry where
  form : Option String
  frame : Option String
  endDate : Option String
  val : Option ℚ
deriving DecidableEq

/-- The `units` object of one XBRL tag: unit name (e.g. `"USD"`) to the list
of reported entries. -/
structure TagData where
  units : List (String × List FactEntry)
deriving DecidableEq

/-- A company-facts payload reduced to the part the code reads:
`facts.get('facts', {}).get('us-gaap', {})`, the map from tag name to tag
data.  A missing `facts`/`us-gaap` key yields the empty map, which is the
empty association list here. -/
structure Facts where
  us_gaap : List (String × TagData)
deriving DecidableEq

/-- `units.get('USD', [])` (edgar_scraper.py line 110). -/
def usdData (td : TagData) : List FactEntry :=
  (td.units.lookup "USD").getD []

/-- The sort key of line 132: `x.get('end', '')` — a missing period-end date
is treated as the empty string. -/
def endKey (e : FactEntry) : String :=
  e.endDate.getD ""

/-- One insertion step of a stable descending insertion sort on `endKey`.
An element is placed before the first already-sorted element whose key is
not strictly greater, so earlier elements stay before later ones with equal
keys — the stability guarantee of Python's `list.sort(..., reverse=True)`. -/
def insertDesc (e : FactEntry) : List FactEntry → List FactEntry
  | [] => [e]
  | x :: xs => if endKey e < endKey x then x :: insertDesc e xs else e :: x :: xs

/-- `quarterly_entries.sort(key=lambda x: x.get('end', ''), reverse=True)`
(line 132): stable descending sort by period-end date, modelled as a stable
insertion sort. -/
def sortByEndDesc (l : List FactEntry) : List FactEntry :=
  l.foldr insertDesc []

/-- Lines 116-126: restrict the USD series to entries of the requested form
that carry a `frame`; if that leaves nothing, fall back to all entries of the
requested form. -/
def quarterly_entries (usd : List FactEntry) (form : String) : List FactEntry :=
  let framed := usd.filter (fun e => e.form == some form && e.frame.isSome)
  if framed.isEmpty then usd.filter (fun e => e.form == some form) else framed

/-- `extract_quarterly_value` (edgar_scraper.py lines 94-139).  Walks the
candidate tags in order; a tag missing from `us-gaap`, with no USD series,
or with no entry surviving the form/frame filtering falls through to the
next tag; otherwise the head of the descending-by-end-date sort is returned
as `(val, end, raw_entry)`.  The `[]` arm of the inner match is unreachable
because sorting a nonempty list is nonempty. -/
def extract_quarterly_value (facts : Facts) (tags : List String) (form : String) :
    Option ℚ × Option String × Option FactEntry :=
  match tags with
  | [] => (none, none, none)
  | tag :: rest =>
    match facts.us_gaap.lookup tag with
    | none => extract_quarterly_value facts rest form
    | some tag_data =>
      let usd := usdData tag_data
      if usd.isEmpty then extract_quarterly_value facts rest form
      else
        let qs := quarterly_entries usd form
        if qs.isEmpty then extract_quarterly_value facts rest form
        else
          match sortByEndDesc qs with
          | [] => (none, none, none)
          | latest :: _ => (latest.val, latest.endDate, some latest)

/-- `REVENUE_TAGS` (edgar_scraper.py lines 28-35). -/
def REVENUE_TAGS : List String :=
  ["Revenues",
   "RevenueFromContractWithCustomerExcludingAssessedTax",
   "RevenueFromContractWithCustomerIncludingAssessedTax",
   "SalesRevenueNet",
   "SalesRevenueGoodsNet",
   "TotalRevenuesAndOtherIncome"]

/-- `COGS_TAGS` (edgar_scraper.py lines 37-42). -/
def COGS_TAGS : List String :=
  ["CostOfRevenue",
   "CostOfGoodsAndServicesSold",
   "CostOfGoodsSold",
   "CostOfGoodsAndServiceExcludingDepreciationDepletionAndAmortization"]

/-- The gross-margin computation shared verbatim by both scripts
(edgar_scraper.py lines 187-190, stock_scraper.py lines 99-102):
`if revenue is not None and cogs is not None and revenue != 0:
   gross_margin = (revenue - cogs) / revenue * 100`. -/
def gross_margin (revenue cogs : Option ℚ) : Option ℚ :=
  match revenue, cogs with
  | some r, some c => if r ≠ 0 then some ((r - c) / r * 100) else none
  | _, _ => none

/-- The per-ticker result record built by `get_edgar_financials`
(edgar_scraper.py lines 148-159). -/
structure TickerResult where
  ticker : String
  cik : Option String
  revenue : Option ℚ
  revenue_date : Option String
  cost_of_goods_sold : Option ℚ
  cogs_date : Option String
  gross_margin : Option ℚ
  error : Option String
  raw_revenue : Option FactEntry
  raw_cogs : Option FactEntry
deriving DecidableEq

/-- The all-`None` initial result dict of lines 148-159. -/
def emptyResult (ticker : String) : TickerResult :=
  { ticker := ticker, cik := none, revenue := none, revenue_date := none,
    cost_of_goods_sold := none, cogs_date := none, gross_margin := none,
    error := none, raw_revenue := none, raw_cogs := none }

/-- `get_edgar_financials` (edgar_scraper.py lines 142-200).  The CIK table
is an association list; the network fetch `get_company_facts` is the
parameter `factsOf` (returning `none` on 404 / transport failure / falsy
payload).  CIK strings in the real table are zero-padded to 10 digits and
hence never empty, so Python's `if not cik` is exactly a lookup miss. -/
def get_edgar_financials (cik_mapping : List (String × String))
    (factsOf : String → Option Facts) (ticker : String) : TickerResult :=
  let result := emptyResult ticker
  match cik_mapping.lookup ticker with
  | none =>
      { result with error := some "Ticker not found in SEC database (may be ETF or foreign)" }
  | some cik =>
    match factsOf cik with
    | none => { result with cik := some cik, error := some "No EDGAR data available" }
    | some facts =>
      let rev := extract_quarterly_value facts REVENUE_TAGS "10-Q"
      let cog := extract_quarterly_value facts COGS_TAGS "10-Q"
      let revenue := rev.1
      let cogs := cog.1
      let err :=
        if revenue = none ∧ cogs = none then some "No revenue or COGS data found in filings"
        else if revenue = none then some "Revenue not found"
        else if cogs = none then some "Cost of goods sold not found (gross margin unavailable)"
        else none
      { result with
        cik := some cik,
        revenue := revenue, revenue_date := rev.2.1, raw_revenue := rev.2.2,
        cost_of_goods_sold := cogs, cogs_date := cog.2.1, raw_cogs := cog.2.2,
        gross_margin := gross_margin revenue cogs,
        error := err }

/-- Rounding to two decimal places, used only in the Summary sheet
(edgar_scraper.py line 296).  Midpoint ties are modelled as round-half-up;
the scripts' float rounding differs only at exact midpoints. -/
def round2 (q : ℚ) : ℚ :=
  (round (q * 100) : ℤ) / 100

/-- The Summary-sheet margin cell of line 296:
`round(r['gross_margin'], 2) if r['gross_margin'] else None`.
Note the Python truthiness test: both `None` and `0.0` are falsy. -/
def summaryMarginCell (gm : Option ℚ) : Option ℚ :=
  match gm with
  | some v => if v ≠ 0 then some (round2 v) else none
  | none => none

/-- One row of the `Summary` sheet (edgar_scraper.py lines 289-298). -/
structure SummaryRow where
  ticker : String
  cik : Option String
  revenue : Option ℚ
  revenue_date : Option String
  cogs : Option ℚ
  cogs_date : Option String
  margin : Option ℚ
  notes : String
deriving DecidableEq

/-- Build one Summary row from a per-ticker result (lines 289-298); the
`Notes` column is `r['error'] if r['error'] else ''`. -/
def summaryRowOf (r : TickerResult) : SummaryRow :=
  { ticker := r.ticker, cik := r.cik, revenue := r.revenue,
    revenue_date := r.revenue_date, cogs := r.cost_of_goods_sold,
    cogs_date := r.cogs_date, margin := summaryMarginCell r.gross_margin,
    notes := r.error.getD "" }

/-- One row of the `Raw Data` sheet (edgar_scraper.py lines 266-281), with
the JSON dump / flattening of the raw entries abstracted to the entries
themselves. -/
structure RawRow where
  ticker : String
  cik : Option String
  raw_revenue : Option FactEntry
  raw_cogs : Option FactEntry
deriving DecidableEq

/-- Build one Raw Data row from a per-ticker result (lines 266-281). -/
def rawRowOf (r : TickerResult) : RawRow :=
  { ticker := r.ticker, cik := r.cik, raw_revenue := r.raw_revenue,
    raw_cogs := r.raw_cogs }

/-- The main loop of edgar_scraper.py lines 261-263: one result appended per
input ticker, in order. -/
def resultsOf (cik_mapping : List (String × String))
    (factsOf : String → Option Facts) (tickers : List String) : List TickerResult :=
  tickers.map (get_edgar_financials cik_mapping factsOf)

/-- The `Summary` sheet: one row per result (lines 289-298, 305). -/
def summarySheet (cik_mapping : List (String × String))
    (factsOf : String → Option Facts) (tickers : List String) : List SummaryRow :=
  (resultsOf cik_mapping factsOf tickers).map summaryRowOf

/-- The `Raw Data` sheet: one row per result (lines 266-281, 306). -/
def rawSheet (cik_mapping : List (String × String))
    (factsOf : String → Option Facts) (tickers : List String) : List RawRow :=
  (resultsOf cik_mapping factsOf tickers).map rawRowOf

/-- A candidate tag "yields" when `extract_quarterly_value` would stop at it:
it is present in `us-gaap` and at least one of its USD entries survives the
form/frame filtering.  `false` covers all three `continue` paths of
lines 102-129 (tag absent, no USD series, nothing of the requested form). -/
def tag_yields (facts : Facts) (form tag : String) : Bool :=
  match facts.us_gaap.lookup tag with
  | none => false
  | some td => !(quarterly_entries (usdData td) form).isEmpty

/-- A minimal payload whose winning revenue and COGS entries are both 1000,
so that the computed gross margin is exactly 0. -/
def zeroMarginFacts : Facts :=
  ⟨[("Revenues", ⟨[("USD", [⟨some "10-Q", some "CY2024Q1", some "2024-03-31", some 1000⟩])]⟩),
    ("CostOfRevenue", ⟨[("USD", [⟨some "10-Q", some "CY2024Q1", some "2024-03-31", some 1000⟩])]⟩)]⟩

/-! ### Ticker-list loading (`read_tickers`, identical in both scripts) -/

/-- Ticker text modelled as a list of Unicode code points (Python `str`). -/
abbrev PyStr := List ℕ

/-- Python's whitespace set restricted to ASCII: space, tab, newline,
carriage return, vertical tab, form feed. -/
def isSpaceChar (c : ℕ) : Bool :=
  c == 32 || c == 9 || c == 10 || c == 13 || c == 11 || c == 12

/-- Python `str.strip()`: drop leading whitespace, then trailing whitespace. -/
def strip (s : PyStr) : PyStr :=
  (s.dropWhile isSpaceChar).rdropWhile isSpaceChar

/-- ASCII uppercasing of one code point, as `str.upper()` acts on the
characters appearing in ticker files. -/
def upChar (c : ℕ) : ℕ :=
  if 97 ≤ c ∧ c ≤ 122 then c - 32 else c

/-- Python `str.upper()`. -/
def upper (s : PyStr) : PyStr :=
  s.map upChar

/-- The normalization pass shared by all three input formats:
`[t.upper().strip() for t in tickers if t.strip()]`
(edgar_scraper.py line 59, stock_scraper.py line 38).  Python string
truthiness: a string is truthy iff nonempty. -/
def normalizePass (tickers : List PyStr) : List PyStr :=
  (tickers.filter (fun t => !(strip t).isEmpty)).map (fun t => strip (upper t))

/-- `read_tickers` on a plain text file, given its lines:
`[line.strip() for line in f if line.strip()]` followed by the shared
normalization pass (lines 56-59 of both scripts). -/
def read_tickers_txt (lines : List PyStr) : List PyStr :=
  normalizePass ((lines.filter (fun l => !(strip l).isEmpty)).map strip)

/-- `read_tickers` on a `.csv`/`.xlsx` file, given the non-null first-column
cells rendered as strings (lines 49-54): only the shared normalization pass
applies. -/
def read_tickers_cells (cells : List PyStr) : List PyStr :=
  normalizePass cells

end Wyatt

namespace Wyatt

/-! ### Helper lemmas -/

/-- Any list splits as its `rdropWhile` part followed by the dropped tail. -/
lemma rdropWhile_append_eq {α : Type} (p : α → Bool) (x : List α) :
    x = x.rdropWhile p ++ (x.reverse.takeWhile p).reverse := by
  conv_lhs => rw [← x.reverse_reverse, ← List.takeWhile_append_dropWhile p x.reverse]
  rw [List.reverse_append]
  rfl

/-- The head of a stripped string is not whitespace. -/
lemma strip_head_false (s : PyStr) (a : ℕ) (t : List ℕ) (h : strip s = a :: t) :
    isSpaceChar a = false := by
  have hd := rdropWhile_append_eq isSpaceChar (s.dropWhile isSpaceChar)
  rw [show (s.dropWhile isSpaceChar).rdropWhile isSpaceChar = strip s from rfl, h] at hd
  have hself := List.dropWhile_eq_self_iff.mp (List.dropWhile_idempotent isSpaceChar s)
  rw [hd] at hself
  simpa using hself (by simp)

/-- Stripping is idempotent. -/
lemma strip_idem (s : PyStr) : strip (strip s) = strip s := by
  have h1 : (strip s).dropWhile isSpaceChar = strip s := by
    cases hz : strip s with
    | nil => simp
    | cons a t => rw [List.dropWhile_cons, strip_head_false s a t hz]; simp
  show ((strip s).dropWhile isSpaceChar).rdropWhile isSpaceChar = strip s
  rw [h1]
  exact List.rdropWhile_idempotent isSpaceChar (s.dropWhile isSpaceChar)

/-- Every character of a stripped string occurs in the original. -/
lemma mem_of_mem_strip {c : ℕ} {s : PyStr} (h : c ∈ strip s) : c ∈ s := by
  have h1 : c ∈ s.dropWhile isSpaceChar := by
    rw [rdropWhile_append_eq isSpaceChar (s.dropWhile isSpaceChar)]
    exact List.mem_append_left _ h
  rw [← List.takeWhile_append_dropWhile isSpaceChar s]
  exact List.mem_append_right _ h1

/-- ASCII uppercasing is idempotent. -/
lemma upChar_idem (c : ℕ) : upChar (upChar c) = upChar c := by
  simp only [upChar]
  split_ifs <;> omega

/-- A map that fixes every element of a list fixes the list. -/
lemma map_eq_self_of {α : Type} (f : α → α) :
    ∀ l : List α, (∀ a ∈ l, f a = a) → l.map f = l
  | [], _ => rfl
  | a :: l, h => by
    rw [List.map_cons, h a (List.mem_cons_self a l),
      map_eq_self_of f l (fun b hb => h b (List.mem_cons_of_mem a hb))]

/-- The output of `strip ∘ upper` is already fully uppercased. -/
lemma upper_strip_upper (r : PyStr) : upper (strip (upper r)) = strip (upper r) := by
  refine map_eq_self_of upChar _ (fun c hc => ?_)
  obtain ⟨d, _, rfl⟩ := List.mem_map.mp (mem_of_mem_strip hc)
  exact upChar_idem d

end Wyatt

namespace Wyatt

/-- The head of the descending sort is an element of the list with a
maximal `endKey`. -/
lemma sort_head_max :
    ∀ l : List FactEntry, l ≠ [] →
      ∃ a t, sortByEndDesc l = a :: t ∧ a ∈ l ∧ ∀ x ∈ l, endKey x ≤ endKey a := by
  intro l
  induction l with
  | nil => intro h; exact absurd rfl h
  | cons e l ih =>
    intro _
    cases hl : l with
    | nil =>
      refine ⟨e, [], rfl, List.mem_cons_self e [], ?_⟩
      intro x hx
      rw [List.mem_singleton.mp hx]
    | cons f l' =>
      obtain ⟨a, t, hs, hmem, hmax⟩ := ih (by rw [hl]; exact List.cons_ne_nil f l')
      rw [← hl]
      have hstep : sortByEndDesc (e :: l) = insertDesc e (sortByEndDesc l) := rfl
      rw [hstep, hs]
      by_cases hcmp : endKey e < endKey a
      · refine ⟨a, insertDesc e t, by simp [insertDesc, hcmp], List.mem_cons_of_mem e hmem, ?_⟩
        intro x hx
        rcases List.mem_cons.mp hx with hx | hx
        · rw [hx]; exact le_of_lt hcmp
        · exact hmax x hx
      · refine ⟨e, a :: t, by simp [insertDesc, hcmp], List.mem_cons_self e l, ?_⟩
        intro x hx
        rcases List.mem_cons.mp hx with hx | hx
        · rw [hx]
        · exact (hmax x hx).trans (not_lt.mp hcmp)

/-- Filtering the empty USD series gives the empty list. -/
lemma quarterly_entries_nil (form : String) : quarterly_entries [] form = [] := rfl

/-- `extract_quarterly_value` skips a head tag that does not yield
(absent, no USD series, or nothing surviving the filtering). -/
lemma extract_cons_skip (facts : Facts) (tag : String) (rest : List String) (form : String)
    (hskip : tag_yields facts form tag = false) :
    extract_quarterly_value facts (tag :: rest) form = extract_quarterly_value facts rest form := by
  cases hlook : facts.us_gaap.lookup tag with
  | none =>
    conv_lhs => rw [extract_quarterly_value]
    rw [hlook]
  | some td =>
    rw [tag_yields, hlook] at hskip
    simp only [Bool.not_eq_false'] at hskip
    conv_lhs => rw [extract_quarterly_value]
    rw [hlook]
    cases husd : (usdData td).isEmpty with
    | true => simp only [husd, if_true]
    | false => simp only [husd, hskip, Bool.false_eq_true, if_false, if_true]

/-- When the head tag yields, `extract_quarterly_value` returns the
sorted head of that tag's surviving entries, which carries a maximal
period-end date among them. -/
lemma extract_cons_won (facts : Facts) (tag : String) (td : TagData)
    (rest : List String) (form : String)
    (hlook : facts.us_gaap.lookup tag = some td)
    (hne : quarterly_entries (usdData td) form ≠ []) :
    ∃ e, e ∈ quarterly_entries (usdData td) form
      ∧ extract_quarterly_value facts (tag :: rest) form = (e.val, e.endDate, some e)
      ∧ ∀ x ∈ quarterly_entries (usdData td) form, endKey x ≤ endKey e := by
  have husd : (usdData td).isEmpty = false := by
    cases h : usdData td with
    | nil => exact absurd (by rw [h]; rfl) hne
    | cons x xs => rfl
  have hqs : (quarterly_entries (usdData td) form).isEmpty = false := by
    cases h : quarterly_entries (usdData td) form with
    | nil => exact absurd h hne
    | cons x xs => rfl
  obtain ⟨a, t, hs, hmem, hmax⟩ := sort_head_max _ hne
  refine ⟨a, hmem, ?_, hmax⟩
  conv_lhs => rw [extract_quarterly_value]
  rw [hlook]
  simp only [husd, hqs, Bool.false_eq_true, if_false, hs]
end Wyatt

namespace Wyatt

/-- **C2.** Gross margin is computed iff both revenue and cost-of-goods are
present and revenue is nonzero, and then equals `(revenue - cost) / revenue * 100`;
concretely `margin 1000 600 = 40`, `margin 1000 0 = 100`, `margin 0 100` is
absent and `margin 1000 absent` is absent. -/
theorem c2_gross_margin (revenue cogs : Option ℚ) :
    (gross_margin revenue cogs ≠ none ↔ ∃ r c, revenue = some r ∧ cogs = some c ∧ r ≠ 0)
    ∧ (∀ r c : ℚ, r ≠ 0 → gross_margin (some r) (some c) = some ((r - c) / r * 100))
    ∧ gross_margin (some 1000) (some 600) = some 40
    ∧ gross_margin (some 1000) (some 0) = some 100
    ∧ gross_margin (some 0) (some 100) = none
    ∧ gross_margin (some 1000) none = none := by
  refine ⟨?_, fun r c hr => by simp [gross_margin, hr],
    by norm_num [gross_margin], by norm_num [gross_margin],
    by simp [gross_margin], by simp [gross_margin]⟩
  cases revenue with
  | none => simp [gross_margin]
  | some r =>
    cases cogs with
    | none => simp [gross_margin]
    | some c =>
      by_cases hr : r = 0
      · simp [gross_margin, hr]
      · simp only [gross_margin, if_pos hr]
        constructor
        · intro _
          exact ⟨r, c, rfl, rfl, hr⟩
        · intro _
          simp

/-- Witness for C2 at concrete inputs. -/
theorem c2_gross_margin_witness :
    gross_margin (some 1000) (some 600) = some ((1000 - 600) / 1000 * 100)
    ∧ gross_margin (some 1000) (some 0) = some 100 := by
  have h := c2_gross_margin (some 1000) (some 600)
  exact ⟨h.2.1 1000 600 (by norm_num), (c2_gross_margin (some 1000) (some 0)).2.2.2.1⟩

/-- **C3.** The one-pass filter of lines 116-126 is exactly: restrict to the
target form first; if any form-matching entry carries a frame, keep only the
framed ones, otherwise keep all form-matching entries. -/
theorem c3_form_then_frame (usd : List FactEntry) (form : String) :
    quarterly_entries usd form =
      if (usd.filter (fun e => e.form == some form)).any (fun e => e.frame.isSome)
      then (usd.filter (fun e => e.form == some form)).filter (fun e => e.frame.isSome)
      else usd.filter (fun e => e.form == some form) := by
  have hff : (usd.filter (fun e => e.form == some form)).filter (fun e => e.frame.isSome)
      = usd.filter (fun e => e.form == some form && e.frame.isSome) := by
    rw [List.filter_filter]
    exact List.filter_congr (fun x _ => Bool.and_comm _ _)
  rw [quarterly_entries]
  cases hany : (usd.filter (fun e => e.form == some form)).any (fun e => e.frame.isSome) with
  | false =>
    have hnil : usd.filter (fun e => e.form == some form && e.frame.isSome) = [] := by
      rw [← hff, List.filter_eq_nil_iff]
      intro e he hq
      have h2 : (usd.filter (fun e => e.form == some form)).any (fun e => e.frame.isSome) = true :=
        List.any_eq_true.mpr ⟨e, he, hq⟩
      rw [hany] at h2
      exact Bool.false_ne_true h2
    simp [hnil]
  | true =>
    obtain ⟨e, he, hq⟩ := List.any_eq_true.mp hany
    have hne : usd.filter (fun e => e.form == some form && e.frame.isSome) ≠ [] := by
      rw [← hff]
      intro h
      rw [List.filter_eq_nil_iff] at h
      exact h e he hq
    have : (usd.filter (fun e => e.form == some form && e.frame.isSome)).isEmpty = false := by
      cases hc : usd.filter (fun e => e.form == some form && e.frame.isSome) with
      | nil => exact absurd hc hne
      | cons x xs => rfl
    simp [this, hff]

/-- **C7.** If every candidate tag is absent, lacks a USD series, or has no
entry surviving the form/frame filtering, extraction returns the absent
triple; being a total function, it raises nothing. -/
theorem c7_absent_is_normal (facts : Facts) (tags : List String) (form : String)
    (hall : ∀ t ∈ tags, tag_yields facts form t = false) :
    extract_quarterly_value facts tags form = (none, none, none) := by
  induction tags with
  | nil => rfl
  | cons tag rest ih =>
    rw [extract_cons_skip facts tag rest form (hall tag (List.mem_cons_self tag rest))]
    exact ih (fun t ht => hall t (List.mem_cons_of_mem tag ht))

/-- Witness for C7: a payload whose only revenue-candidate tag carries only a
10-K entry, so nothing survives `10-Q` filtering. -/
theorem c7_absent_is_normal_witness :
    extract_quarterly_value
      ⟨[("Revenues", ⟨[("USD", [⟨some "10-K", none, some "2024-12-31", some 7⟩])]⟩)]⟩
      REVENUE_TAGS "10-Q" = (none, none, none) := by
  apply c7_absent_is_normal
  decide

/-- **C10.** A candidate tag whose `units` object has no `"USD"` key is
skipped exactly as if the tag were absent, regardless of what is reported
under any other unit (the tag data is universally quantified apart from the
missing USD series). -/
theorem c10_usd_only (facts : Facts) (tag : String) (td : TagData)
    (rest : List String) (form : String)
    (hlook : facts.us_gaap.lookup tag = some td)
    (husd : td.units.lookup "USD" = none) :
    extract_quarterly_value facts (tag :: rest) form
      = extract_quarterly_value facts rest form := by
  apply extract_cons_skip
  rw [tag_yields, hlook]
  simp [usdData, husd, quarterly_entries]

/-- Witness for C10: a tag reported only in EUR falls through to the next
candidate. -/
theorem c10_usd_only_witness :
    extract_quarterly_value
      ⟨[("TagA", ⟨[("EUR", [⟨some "10-Q", some "CY1", some "2024-03-31", some 5⟩])]⟩),
        ("TagB", ⟨[("USD", [⟨some "10-Q", some "CY1", some "2023-03-31", some 9⟩])]⟩)]⟩
      ["TagA", "TagB"] "10-Q"
      = extract_quarterly_value
          ⟨[("TagA", ⟨[("EUR", [⟨some "10-Q", some "CY1", some "2024-03-31", some 5⟩])]⟩),
            ("TagB", ⟨[("USD", [⟨some "10-Q", some "CY1", some "2023-03-31", some 9⟩])]⟩)]⟩
          ["TagB"] "10-Q" := by
  apply c10_usd_only
  · rfl
  · rfl

end Wyatt

namespace Wyatt

/-- **C4.** For the winning tag, the extractor returns an entry of the
surviving (form/frame-filtered) list whose period-end date string is
lexicographically greatest, a missing date field counting as `""`
(`endKey`). -/
theorem c4_latest_end_date (facts : Facts) (tag : String) (td : TagData)
    (rest : List String) (form : String)
    (hlook : facts.us_gaap.lookup tag = some td)
    (hne : quarterly_entries (usdData td) form ≠ []) :
    ∃ e, e ∈ quarterly_entries (usdData td) form
      ∧ extract_quarterly_value facts (tag :: rest) form = (e.val, e.endDate, some e)
      ∧ ∀ x ∈ quarterly_entries (usdData td) form, endKey x ≤ endKey e :=
  extract_cons_won facts tag td rest form hlook hne

/-- Witness for C4: two surviving 10-Q entries; the one dated 2024-03-31 wins
over 2023-12-31. -/
theorem c4_latest_end_date_witness :
    ∃ e, e ∈ quarterly_entries
        (usdData ⟨[("USD",
          [⟨some "10-Q", none, some "2023-12-31", some 3⟩,
           ⟨some "10-Q", none, some "2024-03-31", some 4⟩])]⟩) "10-Q"
      ∧ extract_quarterly_value
          ⟨[("Revenues", ⟨[("USD",
            [⟨some "10-Q", none, some "2023-12-31", some 3⟩,
             ⟨some "10-Q", none, some "2024-03-31", some 4⟩])]⟩)]⟩
          ("Revenues" :: []) "10-Q" = (e.val, e.endDate, some e)
      ∧ ∀ x ∈ quarterly_entries
          (usdData ⟨[("USD",
            [⟨some "10-Q", none, some "2023-12-31", some 3⟩,
             ⟨some "10-Q", none, some "2024-03-31", some 4⟩])]⟩) "10-Q",
          endKey x ≤ endKey e := by
  apply c4_latest_end_date
  · rfl
  · decide

/-- **C1, as stated: refuted.** A payload where candidate `TagA` (earlier in
priority) is present in `us-gaap` — all its reported USD values equal 7, but
under form 10-K only — while `TagB` (later) has a surviving 10-Q entry with
value 9: the extractor returns 9, which is not a value of the first present
candidate `TagA`. -/
theorem c1_counterexample :
    extract_quarterly_value
        ⟨[("TagA", ⟨[("USD", [⟨some "10-K", none, some "2024-12-31", some 7⟩])]⟩),
          ("TagB", ⟨[("USD", [⟨some "10-Q", some "CY1", some "2020-01-01", some 9⟩])]⟩)]⟩
        ["TagA", "TagB"] "10-Q"
        = (some 9, some "2020-01-01", some ⟨some "10-Q", some "CY1", some "2020-01-01", some 9⟩)
    ∧ (⟨[("TagA", ⟨[("USD", [⟨some "10-K", none, some "2024-12-31", some 7⟩])]⟩),
         ("TagB", ⟨[("USD", [⟨some "10-Q", some "CY1", some "2020-01-01", some 9⟩])]⟩)]⟩ :
        Facts).us_gaap.lookup "TagA"
        = some ⟨[("USD", [⟨some "10-K", none, some "2024-12-31", some 7⟩])]⟩ := by
  constructor
  · decide
  · decide

/-- **C1, amended.** The extractor returns its value from the first candidate
tag that is present AND has at least one USD entry surviving the form/frame
filtering; in particular, if candidates A (earlier) and B (later) both have
surviving entries, A's value is returned whatever B's period-end dates are
(`rest` is universally quantified). -/
theorem c1_first_surviving_tag_wins (facts : Facts) (form : String)
    (pre : List String) (tag : String) (rest : List String)
    (hpre : ∀ t ∈ pre, tag_yields facts form t = false)
    (htag : tag_yields facts form tag = true) :
    ∃ td e, facts.us_gaap.lookup tag = some td
      ∧ e ∈ quarterly_entries (usdData td) form
      ∧ extract_quarterly_value facts (pre ++ tag :: rest) form
          = (e.val, e.endDate, some e) := by
  induction pre with
  | nil =>
    rw [List.nil_append]
    cases hlook : facts.us_gaap.lookup tag with
    | none => simp [tag_yields, hlook] at htag
    | some td =>
      simp only [tag_yields, hlook, Bool.not_eq_true'] at htag
      have hne : quarterly_entries (usdData td) form ≠ [] := by
        intro h
        rw [h] at htag
        exact absurd htag (by simp)
      obtain ⟨e, hmem, heq, _⟩ := extract_cons_won facts tag td rest form hlook hne
      exact ⟨td, e, rfl, hmem, heq⟩
  | cons p pre' ih =>
    rw [List.cons_append,
      extract_cons_skip facts p (pre' ++ tag :: rest) form (hpre p (List.mem_cons_self p pre'))]
    exact ih (fun t ht => hpre t (List.mem_cons_of_mem p ht))

/-- Witness for C1 (amended): the first candidate is skipped (only a 10-K
entry), the second wins with its 10-Q entry of value 4 even though the later
candidate `TagC` has a strictly later period-end date. -/
theorem c1_first_surviving_tag_wins_witness :
    ∃ td e, (⟨[("TagA", ⟨[("USD", [⟨some "10-K", none, some "2024-12-31", some 7⟩])]⟩),
               ("TagB", ⟨[("USD", [⟨some "10-Q", none, some "2023-09-30", some 4⟩])]⟩),
               ("TagC", ⟨[("USD", [⟨some "10-Q", none, some "2024-03-31", some 8⟩])]⟩)]⟩ :
          Facts).us_gaap.lookup "TagB" = some td
      ∧ e ∈ quarterly_entries (usdData td) "10-Q"
      ∧ extract_quarterly_value
          ⟨[("TagA", ⟨[("USD", [⟨some "10-K", none, some "2024-12-31", some 7⟩])]⟩),
            ("TagB", ⟨[("USD", [⟨some "10-Q", none, some "2023-09-30", some 4⟩])]⟩),
            ("TagC", ⟨[("USD", [⟨some "10-Q", none, some "2024-03-31", some 8⟩])]⟩)]⟩
          (["TagA"] ++ "TagB" :: ["TagC"]) "10-Q"
          = (e.val, e.endDate, some e) := by
  apply c1_first_surviving_tag_wins
  · decide
  · decide

/-- **C5 (code bug).** On a payload whose winning revenue and COGS entries
are both 1000, the gross margin is present and equals 0, yet the Summary
sheet's margin cell is empty: line 296's `if r['gross_margin']` treats the
float `0.0` as falsy, so a present zero margin is dropped from the formatted
report instead of being shown as `0.0`. -/
theorem c5_zero_margin_dropped :
    (get_edgar_financials [("TT", "0000000001")] (fun _ => some zeroMarginFacts) "TT").gross_margin
        = some 0
    ∧ (summaryRowOf (get_edgar_financials [("TT", "0000000001")]
        (fun _ => some zeroMarginFacts) "TT")).margin = none := by
  have h0 : gross_margin (some 1000) (some 1000) = some 0 := by
    simp only [gross_margin]
    norm_num
  have hgm : (get_edgar_financials [("TT", "0000000001")]
      (fun _ => some zeroMarginFacts) "TT").gross_margin = gross_margin (some 1000) (some 1000) := rfl
  have h1 : (get_edgar_financials [("TT", "0000000001")]
      (fun _ => some zeroMarginFacts) "TT").gross_margin = some 0 := hgm.trans h0
  refine ⟨h1, ?_⟩
  have h2 : (summaryRowOf (get_edgar_financials [("TT", "0000000001")]
      (fun _ => some zeroMarginFacts) "TT")).margin
      = summaryMarginCell (get_edgar_financials [("TT", "0000000001")]
          (fun _ => some zeroMarginFacts) "TT").gross_margin := rfl
  rw [h2, h1]
  simp [summaryMarginCell]

end Wyatt

namespace Wyatt

/-- The per-ticker result always carries its input ticker. -/
lemma ticker_of_result (cik_mapping : List (String × String))
    (factsOf : String → Option Facts) (ticker : String) :
    (get_edgar_financials cik_mapping factsOf ticker).ticker = ticker := by
  cases hm : cik_mapping.lookup ticker with
  | none => simp only [get_edgar_financials, hm, emptyResult]
  | some cik =>
    cases hf : factsOf cik with
    | none => simp only [get_edgar_financials, hm, hf, emptyResult]
    | some facts => simp only [get_edgar_financials, hm, hf, emptyResult]

/-- **C6.** The per-ticker aggregation is a total function (so it never
raises), the run produces exactly one result per input ticker, and each
result's note is exactly one of the five note strings or absent, with
absence exactly when both metrics are present.  The claim's "no data
available" category covers the two no-data notes of the source: the
facts-fetch failure (`'No EDGAR data available'`) and the
both-metrics-missing case (`'No revenue or COGS data found in filings'`). -/
theorem c6_note_policy (cik_mapping : List (String × String))
    (factsOf : String → Option Facts) (tickers : List String) :
    (resultsOf cik_mapping factsOf tickers).length = tickers.length
    ∧ ∀ r ∈ resultsOf cik_mapping factsOf tickers,
        (r.error = none
          ∨ r.error = some "Ticker not found in SEC database (may be ETF or foreign)"
          ∨ r.error = some "No EDGAR data available"
          ∨ r.error = some "No revenue or COGS data found in filings"
          ∨ r.error = some "Revenue not found"
          ∨ r.error = some "Cost of goods sold not found (gross margin unavailable)")
        ∧ (r.error = none ↔ r.revenue ≠ none ∧ r.cost_of_goods_sold ≠ none) := by
  refine ⟨List.length_map tickers _, ?_⟩
  intro r hr
  simp only [resultsOf, List.mem_map] at hr
  obtain ⟨t, _, rfl⟩ := hr
  cases hm : cik_mapping.lookup t with
  | none => simp [get_edgar_financials, hm, emptyResult]
  | some cik =>
    cases hf : factsOf cik with
    | none => simp [get_edgar_financials, hm, hf, emptyResult]
    | some facts =>
      by_cases hrev : (extract_quarterly_value facts REVENUE_TAGS "10-Q").1 = none
      · by_cases hcog : (extract_quarterly_value facts COGS_TAGS "10-Q").1 = none
        · simp [get_edgar_financials, hm, hf, emptyResult, hrev, hcog]
        · simp [get_edgar_financials, hm, hf, emptyResult, hrev, hcog]
      · by_cases hcog : (extract_quarterly_value facts COGS_TAGS "10-Q").1 = none
        · simp [get_edgar_financials, hm, hf, emptyResult, hrev, hcog]
        · simp [get_edgar_financials, hm, hf, emptyResult, hrev, hcog]

/-- Witness for C6 on a one-ticker run with an empty CIK table. -/
theorem c6_note_policy_witness :
    (resultsOf [] (fun _ => none) ["ZZZZ"]).length = 1
    ∧ ((get_edgar_financials [] (fun _ => none) "ZZZZ").error = none
        ∨ (get_edgar_financials [] (fun _ => none) "ZZZZ").error
            = some "Ticker not found in SEC database (may be ETF or foreign)"
        ∨ (get_edgar_financials [] (fun _ => none) "ZZZZ").error = some "No EDGAR data available"
        ∨ (get_edgar_financials [] (fun _ => none) "ZZZZ").error
            = some "No revenue or COGS data found in filings"
        ∨ (get_edgar_financials [] (fun _ => none) "ZZZZ").error = some "Revenue not found"
        ∨ (get_edgar_financials [] (fun _ => none) "ZZZZ").error
            = some "Cost of goods sold not found (gross margin unavailable)")
    ∧ ((get_edgar_financials [] (fun _ => none) "ZZZZ").error = none
        ↔ (get_edgar_financials [] (fun _ => none) "ZZZZ").revenue ≠ none
          ∧ (get_edgar_financials [] (fun _ => none) "ZZZZ").cost_of_goods_sold ≠ none) := by
  have h := c6_note_policy [] (fun _ => none) ["ZZZZ"]
  have hm : get_edgar_financials [] (fun _ => none) "ZZZZ"
      ∈ resultsOf [] (fun _ => none) ["ZZZZ"] := by
    simp [resultsOf]
  exact ⟨h.1, (h.2 _ hm).1, (h.2 _ hm).2⟩

/-- **C9.** A ticker absent from the CIK table yields a result with no
identifier, no revenue, no cost-of-goods, no margin and the issuer-unknown
note, and every occurrence of any ticker still contributes exactly one row
to the Summary sheet and one to the Raw Data sheet. -/
theorem c9_unknown_ticker (cik_mapping : List (String × String))
    (factsOf : String → Option Facts) (ticker : String)
    (hmiss : cik_mapping.lookup ticker = none) :
    (get_edgar_financials cik_mapping factsOf ticker).cik = none
    ∧ (get_edgar_financials cik_mapping factsOf ticker).revenue = none
    ∧ (get_edgar_financials cik_mapping factsOf ticker).cost_of_goods_sold = none
    ∧ (get_edgar_financials cik_mapping factsOf ticker).gross_margin = none
    ∧ (get_edgar_financials cik_mapping factsOf ticker).error
        = some "Ticker not found in SEC database (may be ETF or foreign)"
    ∧ ∀ tickers : List String,
        (summarySheet cik_mapping factsOf tickers).countP (fun row => row.ticker == ticker)
            = tickers.count ticker
        ∧ (rawSheet cik_mapping factsOf tickers).countP (fun row => row.ticker == ticker)
            = tickers.count ticker := by
  have hfields : get_edgar_financials cik_mapping factsOf ticker
      = { emptyResult ticker with
          error := some "Ticker not found in SEC database (may be ETF or foreign)" } := by
    unfold get_edgar_financials
    rw [hmiss]
  refine ⟨by simp [hfields, emptyResult], by simp [hfields, emptyResult],
    by simp [hfields, emptyResult], by simp [hfields, emptyResult],
    by simp [hfields, emptyResult], ?_⟩
  intro tickers
  constructor
  · rw [summarySheet, resultsOf, List.map_map, List.countP_map, List.count_eq_countP]
    apply List.countP_congr
    intro t _
    simp only [Function.comp_apply, summaryRowOf, ticker_of_result]
  · rw [rawSheet, resultsOf, List.map_map, List.countP_map, List.count_eq_countP]
    apply List.countP_congr
    intro t _
    simp only [Function.comp_apply, rawRowOf, ticker_of_result]

/-- Witness for C9: unknown ticker against the empty CIK table, appearing
once in both sheets of a one-ticker run. -/
theorem c9_unknown_ticker_witness :
    (get_edgar_financials [] (fun _ => none) "ZZZZ").cik = none
    ∧ (get_edgar_financials [] (fun _ => none) "ZZZZ").error
        = some "Ticker not found in SEC database (may be ETF or foreign)"
    ∧ (summarySheet [] (fun _ => none) ["ZZZZ"]).countP (fun row => row.ticker == "ZZZZ")
        = ["ZZZZ"].count "ZZZZ"
    ∧ (rawSheet [] (fun _ => none) ["ZZZZ"]).countP (fun row => row.ticker == "ZZZZ")
        = ["ZZZZ"].count "ZZZZ" := by
  have h := c9_unknown_ticker [] (fun _ => none) "ZZZZ" rfl
  exact ⟨h.1, h.2.2.2.2.1, (h.2.2.2.2.2 ["ZZZZ"]).1, (h.2.2.2.2.2 ["ZZZZ"]).2⟩

/-- **C8.** For both input shapes (lines of a text file; first-column cells
of a tabular file), the loader returns exactly one entry per input whose
trimmed form is nonempty — so no deduplication — and every returned entry is
uppercase (`upper`-fixed) with no leading or trailing whitespace
(`strip`-fixed). -/
theorem c8_read_tickers (lines cells : List PyStr) :
    (read_tickers_txt lines).length
        = (lines.filter (fun l => !(strip l).isEmpty)).length
    ∧ (read_tickers_cells cells).length
        = (cells.filter (fun t => !(strip t).isEmpty)).length
    ∧ (∀ t ∈ read_tickers_txt lines, upper t = t ∧ strip t = t)
    ∧ (∀ t ∈ read_tickers_cells cells, upper t = t ∧ strip t = t) := by
  have hmem : ∀ raw : List PyStr, ∀ t ∈ normalizePass raw, upper t = t ∧ strip t = t := by
    intro raw t ht
    simp only [normalizePass, List.mem_map] at ht
    obtain ⟨r, _, rfl⟩ := ht
    exact ⟨upper_strip_upper r, strip_idem (upper r)⟩
  have hkeep : ((lines.filter (fun l => !(strip l).isEmpty)).map strip).filter
        (fun t => !(strip t).isEmpty)
      = (lines.filter (fun l => !(strip l).isEmpty)).map strip := by
    rw [List.filter_map]
    rw [List.filter_eq_self.mpr]
    intro l hl
    simp only [Function.comp_apply, strip_idem]
    exact (List.mem_filter.mp hl).2
  refine ⟨?_, ?_, hmem _, hmem _⟩
  · rw [read_tickers_txt, normalizePass, hkeep, List.length_map, List.length_map]
  · rw [read_tickers_cells, normalizePass, List.length_map]

/-- Witness for C8: the lines `" ab "`, `"\t\t"` and cells `"c"`, `" "`
normalize to `["AB"]` and `["C"]` respectively. -/
theorem c8_read_tickers_witness :
    (read_tickers_txt [[32, 97, 98, 32], [9, 9]]).length
        = ([[32, 97, 98, 32], [9, 9]].filter (fun l => !(strip l).isEmpty)).length
    ∧ (upper [65, 66] = [65, 66] ∧ strip [65, 66] = [65, 66]) := by
  have h := c8_read_tickers [[32, 97, 98, 32], [9, 9]] [[99], [32]]
  refine ⟨h.1, h.2.2.1 [65, 66] ?_⟩
  decide

end Wyatt
